import Mathlib

/-!
Verification development for the staged generate-and-validate pipeline
(`src/programs/generator2.py`, `src/programs/optimized-generator.py`) and its
benchmark harness (`src/programs/benchmark.py`).

The external constraint-solving engine (clingo) is modelled as an oracle
`Engine : EngineQuery → Option (List String)`: `none` means the search
exhausted without a satisfying model, `some atoms` means a model was found
whose ground atoms render to the given strings.  The module-level mutable
state of the Python programs (`facts`, `seed`, stdout) is modelled as an
explicit `GenState` threaded through each function, together with a trace of
engine invocations (one `begin`/`done` event pair per solve call).
-/

/-- Python's `str` applied to the global `seed`, which is `None` until
`run_generator` assigns it (`str(None) = "None"`). -/
def pyStrSeed : Option Nat → String
  | none => "None"
  | some n => toString n

/-- The full configuration handed to one `clingo.Control` solve:
the command-line option list, the loaded program file, the added `facts`
block (`"\n".join(facts)`), and the grounded parts. -/
structure EngineQuery where
  options : List String
  program : String
  factsBlock : String
  parts : List (String × List String)
deriving DecidableEq, Repr

/-- The external solving engine as an oracle: `none` = search exhausted with
no model; `some atoms` = a model was found, given by its atoms' text. -/
def Engine : Type := EngineQuery → Option (List String)

/-- One entry of the invocation trace: `begin step query` is recorded when a
solve call starts, `done step` when it returns. -/
inductive Event where
  | begin : String → EngineQuery → Event
  | done : String → Event
deriving DecidableEq, Repr

/-- Projection of a trace event to (is-begin?, step label). -/
def evSig : Event → Bool × String
  | .begin s _ => (true, s)
  | .done s => (false, s)

/-- The module-level state of a generator program: the global `facts` list,
the global `seed`, the lines printed so far, and the engine-invocation
trace. -/
structure GenState where
  facts : List String
  seed : Option Nat
  output : List String
  trace : List Event
deriving DecidableEq, Repr

/-- `collect_model` (identical in both generator files, lines 8-10):
`facts.extend([str(atom) + "." for atom in model.symbols(atoms=True)])`. -/
def collect_model (facts : List String) (atoms : List String) : List String :=
  facts ++ atoms.map (fun a => a ++ ".")

/-- The `clingo.Control` configuration built by `solve_step` (lines 20-23 of
both generator files):
`["--rand-freq=" + str(rand_freq), "-t " + str(parallel), f"--seed={str(seed)}"] + parameters`,
`ctl.load(program)`, `ctl.add("facts", [], "\n".join(facts))`,
`ctl.ground([("facts", []), (step, [])])`.  `rand_freq` carries Python's
`str()` of the numeric randomization rate. -/
def stageQuery (program step rand_freq : String) (parallel : Nat)
    (parameters : List String) (seed : Option Nat) (facts : List String) :
    EngineQuery :=
  { options := ["--rand-freq=" ++ rand_freq, "-t " ++ toString parallel,
      "--seed=" ++ pyStrSeed seed] ++ parameters
    program := program
    factsBlock := String.intercalate "\n" facts
    parts := [("facts", []), (step, [])] }

/-- `solve_step` (lines 16-28 of both generator files), parameterized by the
module's `print_model` renderer (the single point where the two files
differ inside `solve_step`'s behaviour).  When the engine finds no model the
`on_model` callback never fires, so the state is returned unchanged apart
from the trace; when `last` is set the model is rendered to output via the
printer, otherwise its atoms are merged into `facts` by `collect_model`.
The Python function returns `None` in every case: its only effects are the
ones recorded in the state. -/
def solveStepP (printer : List String → String) (eng : Engine) (st : GenState)
    (program step rand_freq : String) (parallel : Nat) (last : Bool)
    (parameters : List String) : GenState :=
  let q := stageQuery program step rand_freq parallel parameters st.seed st.facts
  let st1 : GenState := { st with trace := st.trace ++ [Event.begin step q] }
  let st2 : GenState :=
    match eng q with
    | none => st1
    | some atoms =>
      if last then { st1 with output := st1.output ++ [printer atoms] }
      else { st1 with facts := collect_model st1.facts atoms }
  { st2 with trace := st2.trace ++ [Event.done step] }

/-- A declarative stage description: step label, randomization rate (as its
Python `str()` rendering), parallelism, terminal flag, extra parameters. -/
structure StageSpec where
  step : String
  rand_freq : String
  parallel : Nat
  last : Bool
  parameters : List String
deriving DecidableEq, Repr

/-- Folding `solveStepP` over a list of stage descriptions. -/
def runStagesP (printer : List String → String) (eng : Engine)
    (program : String) (st : GenState) (specs : List StageSpec) : GenState :=
  specs.foldl
    (fun s sp =>
      solveStepP printer eng s program sp.step sp.rand_freq sp.parallel
        sp.last sp.parameters)
    st

/-- `secrets.randbelow` (Python stdlib, external boundary): returns a random
integer in `[0, n)`; the bound is its documented contract. -/
structure RandSource where
  randbelow : Nat → Nat
  randbelow_lt : ∀ n, 0 < n → randbelow n < n

/-- Python's `item.startswith(pre)`: `pre` is a prefix of `item`. -/
def pyStartswith (item pre : String) : Bool :=
  pre.toList.isPrefixOf item.toList

/-- The fact filter used before validation (line 46 of `generator2.py`,
lines 45 and 60 of `optimized-generator.py`):
`[item for item in facts if any(item.startswith(f"{f}(") for f in filter)]`. -/
def factFilter (facts fl : List String) : List String :=
  facts.filter (fun item => fl.any (fun f => pyStartswith item (f ++ "(")))

/-- The functor name of a fact's text: the longest initial segment before a
`(` or the terminating `.` (the spec's notion of "fact's functor name"). -/
def functorOf (t : String) : String :=
  String.mk (t.toList.takeWhile (fun c => !(c = '(' || c = '.')))

/-- Modelled from the spec's words (§3, §8): the filter the spec describes,
selecting exactly the facts whose functor name equals one of the listed
predicate names.  Used only to compare against `factFilter`. -/
def factFilterSpec (facts fl : List String) : List String :=
  facts.filter (fun item => fl.contains (functorOf item))

/-- The predicate whitelist of `run_solver` (both generator files). -/
def solverFilterList : List String :=
  ["width", "height", "depth", "block", "pipe", "pipe_in", "pipe_out"]

/-- The predicate whitelist of `run_solver_without_pipes`
(`optimized-generator.py` line 59). -/
def withoutPipesFilterList : List String :=
  ["width", "height", "depth", "block"]

namespace Generator2

/-- `print_model` of `generator2.py` (lines 12-14): renders the model string
(`str(model)` = atoms joined by spaces) as one atom per line, each with a
terminating `.`. -/
def print_model (atoms : List String) : String :=
  String.intercalate "\n"
    (((String.intercalate " " atoms).splitOn " ").map (fun a => a ++ "."))

/-- `solve_step` of `generator2.py` (lines 16-28). -/
def solve_step (eng : Engine) (st : GenState) (program step : String)
    (rand_freq : String := "1.0") (parallel : Nat := 11) (last : Bool := false)
    (parameters : List String := []) : GenState :=
  solveStepP print_model eng st program step rand_freq parallel last parameters

/-- Stage sequencing with `generator2.py`'s `solve_step`. -/
def runStages (eng : Engine) (program : String) (st : GenState)
    (specs : List StageSpec) : GenState :=
  runStagesP print_model eng program st specs

/-- The five stage descriptions hard-coded in `run_generator`
(`generator2.py` lines 37-41). -/
def generatorStages (height width depth : Int) (pr : Bool) : List StageSpec :=
  [ { step := "init", rand_freq := "0", parallel := 1, last := false,
      parameters := ["-c h=" ++ toString height, "-c w=" ++ toString width,
        "-c d=" ++ toString depth] },
    { step := "block_size_gen", rand_freq := "1", parallel := 1, last := false,
      parameters := [] },
    { step := "block_gen", rand_freq := "1", parallel := 11, last := false,
      parameters := [] },
    { step := "pipe_gen", rand_freq := "1", parallel := 11, last := false,
      parameters := [] },
    { step := "rotation", rand_freq := "1", parallel := 11, last := pr,
      parameters := [] } ]

/-- `run_generator` of `generator2.py` (lines 30-41): resets `facts`, draws a
fresh seed with `secrets.randbelow(2**31)`, then runs the five solve calls. -/
def run_generator (rs : RandSource) (eng : Engine) (st : GenState)
    (height width depth : Int) (pr : Bool := false) : GenState :=
  let st := { st with facts := [] }
  let program := "generator2-programs.lp"
  let st := { st with seed := some (rs.randbelow (2 ^ 31)) }
  let st := solve_step eng st program "init" "0" 1 false
    ["-c h=" ++ toString height, "-c w=" ++ toString width,
      "-c d=" ++ toString depth]
  let st := solve_step eng st program "block_size_gen" "1" 1 false []
  let st := solve_step eng st program "block_gen" "1" 11 false []
  let st := solve_step eng st program "pipe_gen" "1" 11 false []
  solve_step eng st program "rotation" "1" 11 pr []

/-- `run_solver` of `generator2.py` (lines 43-56): filters the fact store,
runs one validation solve (`-t 11`, parts `facts` and `base`), rendering the
model only in print mode.  `facts` is never written. -/
def run_solver (eng : Engine) (st : GenState) (pr : Bool := false) : GenState :=
  let filtered := factFilter st.facts solverFilterList
  let q : EngineQuery :=
    { options := ["-t 11"], program := "solver.lp",
      factsBlock := String.intercalate "\n" filtered,
      parts := [("facts", []), ("base", [])] }
  let st1 : GenState := { st with trace := st.trace ++ [Event.begin "base" q] }
  let st2 : GenState :=
    if pr then
      match eng q with
      | none => st1
      | some atoms => { st1 with output := st1.output ++ [print_model atoms] }
    else st1
  { st2 with trace := st2.trace ++ [Event.done "base"] }

end Generator2

namespace OptimizedGenerator

/-- `print_model` of `optimized-generator.py` (lines 12-14): joins the split
model string back with spaces (no terminating dots). -/
def print_model (atoms : List String) : String :=
  String.intercalate " " ((String.intercalate " " atoms).splitOn " ")

/-- `solve_step` of `optimized-generator.py` (lines 16-28); textually the
same as `generator2.py`'s, but it renders with this module's
`print_model`. -/
def solve_step (eng : Engine) (st : GenState) (program step : String)
    (rand_freq : String := "1.0") (parallel : Nat := 11) (last : Bool := false)
    (parameters : List String := []) : GenState :=
  solveStepP print_model eng st program step rand_freq parallel last parameters

/-- Stage sequencing with `optimized-generator.py`'s `solve_step`. -/
def runStages (eng : Engine) (program : String) (st : GenState)
    (specs : List StageSpec) : GenState :=
  runStagesP print_model eng program st specs

/-- The four stage descriptions hard-coded in `run_generator`
(`optimized-generator.py` lines 37-40). -/
def generatorStages (height width depth : Int) (pr : Bool) : List StageSpec :=
  [ { step := "block_size_gen", rand_freq := "1", parallel := 1, last := false,
      parameters := ["-c h=" ++ toString height, "-c w=" ++ toString width,
        "-c d=" ++ toString depth] },
    { step := "block_gen", rand_freq := "0.5", parallel := 11, last := false,
      parameters := [] },
    { step := "pipe_gen", rand_freq := "1", parallel := 11, last := false,
      parameters := [] },
    { step := "rotation", rand_freq := "1", parallel := 11, last := pr,
      parameters := [] } ]

/-- `run_generator` of `optimized-generator.py` (lines 30-40). -/
def run_generator (rs : RandSource) (eng : Engine) (st : GenState)
    (height width depth : Int) (pr : Bool := false) : GenState :=
  let st := { st with facts := [] }
  let program := "./optimized-generator.lp"
  let st := { st with seed := some (rs.randbelow (2 ^ 31)) }
  let st := solve_step eng st program "block_size_gen" "1" 1 false
    ["-c h=" ++ toString height, "-c w=" ++ toString width,
      "-c d=" ++ toString depth]
  let st := solve_step eng st program "block_gen" "0.5" 11 false []
  let st := solve_step eng st program "pipe_gen" "1" 11 false []
  solve_step eng st program "rotation" "1" 11 pr []

/-- `run_solver` of `optimized-generator.py` (lines 42-55). -/
def run_solver (eng : Engine) (st : GenState) (pr : Bool := false) : GenState :=
  let filtered := factFilter st.facts solverFilterList
  let q : EngineQuery :=
    { options := ["-t 11"], program := "./solver.lp",
      factsBlock := String.intercalate "\n" filtered,
      parts := [("facts", []), ("base", [])] }
  let st1 : GenState := { st with trace := st.trace ++ [Event.begin "base" q] }
  let st2 : GenState :=
    if pr then
      match eng q with
      | none => st1
      | some atoms => { st1 with output := st1.output ++ [print_model atoms] }
    else st1
  { st2 with trace := st2.trace ++ [Event.done "base"] }

/-- `run_solver_without_pipes` of `optimized-generator.py` (lines 57-70). -/
def run_solver_without_pipes (eng : Engine) (st : GenState)
    (pr : Bool := false) : GenState :=
  let filtered := factFilter st.facts withoutPipesFilterList
  let q : EngineQuery :=
    { options := ["-t 11"], program := "./solver-without-pipes.lp",
      factsBlock := String.intercalate "\n" filtered,
      parts := [("facts", []), ("base", [])] }
  let st1 : GenState := { st with trace := st.trace ++ [Event.begin "base" q] }
  let st2 : GenState :=
    if pr then
      match eng q with
      | none => st1
      | some atoms => { st1 with output := st1.output ++ [print_model atoms] }
    else st1
  { st2 with trace := st2.trace ++ [Event.done "base"] }

end OptimizedGenerator

/-- An engine whose search always exhausts with no model. -/
def engNone : Engine := fun _ => none

/-- An engine that always reports a model with zero atoms. -/
def engEmpty : Engine := fun _ => some []

/-- An engine that always reports the one-atom model `a(1)`. -/
def engOne : Engine := fun _ => some ["a(1)"]

/-- A concrete randomness source (always draws 0). -/
def rs0 : RandSource := ⟨fun _ => 0, fun _ h => h⟩

/-- A fresh module state: empty fact store, unset seed, nothing printed. -/
def st0 : GenState := ⟨[], none, [], []⟩

/-- The facts one stage invocation contributes to the store (the spec's
"Facts returned by a successful generation-stage invocation", §3 and §8):
empty on "no model" and for the terminal stage, otherwise the model's atoms
each with the terminating `.`. -/
def stageContrib (eng : Engine) (program : String) (seed : Option Nat)
    (facts : List String) (sp : StageSpec) : List String :=
  match eng (stageQuery program sp.step sp.rand_freq sp.parallel sp.parameters
      seed facts) with
  | none => []
  | some atoms => if sp.last then [] else atoms.map (fun a => a ++ ".")

/-- The per-stage contributions of a stage list, each stage queried against
the store accumulated by its predecessors. -/
def stageContribs (eng : Engine) (program : String) (seed : Option Nat) :
    List String → List StageSpec → List (List String)
  | _, [] => []
  | facts, sp :: rest =>
    let c := stageContrib eng program seed facts sp
    c :: stageContribs eng program seed (facts ++ c) rest

theorem solveStepP_seed (printer : List String → String) (eng : Engine)
    (st : GenState) (program step rf : String) (par : Nat) (l : Bool)
    (ps : List String) :
    (solveStepP printer eng st program step rf par l ps).seed = st.seed := by
  simp only [solveStepP]
  cases eng (stageQuery program step rf par ps st.seed st.facts) with
  | none => rfl
  | some atoms => cases l <;> rfl

theorem solveStepP_trace (printer : List String → String) (eng : Engine)
    (st : GenState) (program step rf : String) (par : Nat) (l : Bool)
    (ps : List String) :
    (solveStepP printer eng st program step rf par l ps).trace =
      st.trace ++ [Event.begin step
        (stageQuery program step rf par ps st.seed st.facts),
        Event.done step] := by
  simp only [solveStepP]
  cases eng (stageQuery program step rf par ps st.seed st.facts) with
  | none => simp
  | some atoms => cases l <;> simp

theorem solveStepP_facts (printer : List String → String) (eng : Engine)
    (st : GenState) (program step rf : String) (par : Nat) (l : Bool)
    (ps : List String) :
    (solveStepP printer eng st program step rf par l ps).facts =
      st.facts ++ stageContrib eng program st.seed st.facts
        ⟨step, rf, par, l, ps⟩ := by
  simp only [solveStepP, stageContrib]
  cases eng (stageQuery program step rf par ps st.seed st.facts) with
  | none => simp
  | some atoms => cases l <;> simp [collect_model]

theorem runStagesP_seed (printer : List String → String) (eng : Engine)
    (program : String) :
    ∀ (specs : List StageSpec) (st : GenState),
      (runStagesP printer eng program st specs).seed = st.seed := by
  intro specs
  induction specs with
  | nil => intro st; rfl
  | cons sp rest ih =>
    intro st
    show (runStagesP printer eng program _ rest).seed = st.seed
    rw [ih, solveStepP_seed]

theorem runStagesP_trace_sig (printer : List String → String) (eng : Engine)
    (program : String) :
    ∀ (specs : List StageSpec) (st : GenState),
      ((runStagesP printer eng program st specs).trace).map evSig =
        st.trace.map evSig ++
          specs.flatMap (fun sp => [(true, sp.step), (false, sp.step)]) := by
  intro specs
  induction specs with
  | nil => intro st; simp [runStagesP]
  | cons sp rest ih =>
    intro st
    show ((runStagesP printer eng program _ rest).trace).map evSig = _
    rw [ih, solveStepP_trace]
    simp [evSig]

theorem runStagesP_facts (printer : List String → String) (eng : Engine)
    (program : String) :
    ∀ (specs : List StageSpec) (st : GenState),
      (runStagesP printer eng program st specs).facts =
        st.facts ++ (stageContribs eng program st.seed st.facts specs).flatten := by
  intro specs
  induction specs with
  | nil => intro st; simp [runStagesP, stageContribs]
  | cons sp rest ih =>
    intro st
    obtain ⟨s1, s2, s3, s4, s5⟩ := sp
    show (runStagesP printer eng program _ rest).facts = _
    rw [ih, solveStepP_seed, solveStepP_facts]
    simp [stageContribs, List.append_assoc]

theorem runStagesP_begin_seed (printer : List String → String) (eng : Engine)
    (program : String) (s : Nat) :
    ∀ (specs : List StageSpec) (st : GenState), st.seed = some s →
      ∀ step q,
        Event.begin step q ∈ (runStagesP printer eng program st specs).trace →
        Event.begin step q ∈ st.trace ∨
          ("--seed=" ++ toString s) ∈ q.options := by
  intro specs
  induction specs with
  | nil => intro st _ step q hmem; exact Or.inl hmem
  | cons sp rest ih =>
    intro st hseed step q hmem
    have hseed' :
        (solveStepP printer eng st program sp.step sp.rand_freq sp.parallel
          sp.last sp.parameters).seed = some s := by
      rw [solveStepP_seed]; exact hseed
    rcases ih _ hseed' step q hmem with hin | hopt
    · rw [solveStepP_trace] at hin
      rcases List.mem_append.mp hin with hin | hin
      · exact Or.inl hin
      · rcases List.mem_cons.mp hin with heq | hin
        · cases heq
          right
          simp [stageQuery, hseed, pyStrSeed]
        · rcases List.mem_cons.mp hin with heq | hin
          · cases heq
          · cases hin
    · exact Or.inr hopt

theorem gen2_run_generator_eq (rs : RandSource) (eng : Engine) (st : GenState)
    (h w d : Int) (pr : Bool) :
    Generator2.run_generator rs eng st h w d pr =
      Generator2.runStages eng "generator2-programs.lp"
        { st with facts := [], seed := some (rs.randbelow (2 ^ 31)) }
        (Generator2.generatorStages h w d pr) := rfl

theorem opt_run_generator_eq (rs : RandSource) (eng : Engine) (st : GenState)
    (h w d : Int) (pr : Bool) :
    OptimizedGenerator.run_generator rs eng st h w d pr =
      OptimizedGenerator.runStages eng "./optimized-generator.lp"
        { st with facts := [], seed := some (rs.randbelow (2 ^ 31)) }
        (OptimizedGenerator.generatorStages h w d pr) := rfl

theorem stageContrib_last_nil (eng : Engine) (program : String)
    (seed : Option Nat) (facts : List String) (sp : StageSpec)
    (h : sp.last = true) : stageContrib eng program seed facts sp = [] := by
  unfold stageContrib
  cases eng (stageQuery program sp.step sp.rand_freq sp.parallel sp.parameters
      seed facts) with
  | none => rfl
  | some atoms => simp [h]

theorem stageContribs_flatten_none (eng : Engine) (program : String)
    (seed : Option Nat) (hnone : ∀ q, eng q = none) :
    ∀ (specs : List StageSpec) (facts : List String),
      (stageContribs eng program seed facts specs).flatten = [] := by
  intro specs
  induction specs with
  | nil => intro facts; rfl
  | cons sp rest ih =>
    intro facts
    have hc : stageContrib eng program seed facts sp = [] := by
      unfold stageContrib
      rw [hnone]
    simp [stageContribs, hc, ih]

/-- Claim C1 (counterexample): in a generation run with `print=False` (the
default, used by the benchmark harness), the terminal "rotation" stage is
invoked with `last=False`, so its model's atoms ARE merged into `facts`:
after the terminal invocation the store differs from its value just before
it (the state reached by the first four stages). -/
theorem rotation_merges_on_silent_run :
    ¬ ((Generator2.run_generator rs0 engOne st0 1 1 1 false).facts =
      (Generator2.runStages engOne "generator2-programs.lp"
        { st0 with facts := [], seed := some (rs0.randbelow (2 ^ 31)) }
        ((Generator2.generatorStages 1 1 1 false).take 4)).facts) := by
  decide

/-- Claim C1 (amended): only when `run_generator` is invoked with
`print=True` is the terminal "rotation" stage rendered instead of merged:
the fact store after the run equals the store just before the terminal
invocation.  (With `print=False` the rotation stage merges like any other
stage, as the counterexample shows.) -/
theorem terminal_stage_no_merge_when_printing (rs : RandSource) (eng : Engine)
    (st : GenState) (h w d : Int) :
    (Generator2.run_generator rs eng st h w d true).facts =
      (Generator2.runStages eng "generator2-programs.lp"
        { st with facts := [], seed := some (rs.randbelow (2 ^ 31)) }
        ((Generator2.generatorStages h w d true).take 4)).facts := by
  have h1 : Generator2.run_generator rs eng st h w d true =
      Generator2.solve_step eng
        (Generator2.runStages eng "generator2-programs.lp"
          { st with facts := [], seed := some (rs.randbelow (2 ^ 31)) }
          ((Generator2.generatorStages h w d true).take 4))
        "generator2-programs.lp" "rotation" "1" 11 true [] := rfl
  rw [h1]
  show (solveStepP _ _ _ _ _ _ _ _ _).facts = _
  rw [solveStepP_facts, stageContrib_last_nil _ _ _ _ _ rfl, List.append_nil]

/-- Claim C2 (counterexample): `solve_step` surfaces no "no model" outcome.
At a concrete non-terminal invocation, an engine whose search exhausts with
no model and an engine that returns a zero-atom model leave the caller with
identical results in every observable respect. -/
theorem no_model_outcome_eq_empty_model :
    Generator2.solve_step engNone st0 "generator2-programs.lp" "block_gen"
        "1" 11 false [] =
      Generator2.solve_step engEmpty st0 "generator2-programs.lp" "block_gen"
        "1" 11 false [] := by
  decide

/-- Claim C2 (amended): on search exhaustion `solve_step` returns nothing to
its caller (the Python function returns `None` and discards the solve
result); the fact store is left unchanged, exactly as a successful solve
returning zero atoms leaves it, so the two cases are indistinguishable. -/
theorem solve_step_silent_on_no_model (st : GenState)
    (program step rf : String) (par : Nat) (ps : List String) :
    Generator2.solve_step engNone st program step rf par false ps =
        Generator2.solve_step engEmpty st program step rf par false ps ∧
      (Generator2.solve_step engNone st program step rf par false ps).facts =
        st.facts := by
  refine ⟨?_, ?_⟩ <;>
    simp [Generator2.solve_step, solveStepP, engNone, engEmpty, collect_model]

/-- Claim C3: the fact store is reset at the start of every generation run
(the run's result does not depend on the store it starts from), and after
the run it equals the concatenation, in stage order, of the facts
contributed by the successful non-terminal stage invocations (each atom's
text plus a terminating `.`); it is empty when no stage finds a model. -/
theorem fact_store_is_stage_concatenation (rs : RandSource) (eng : Engine)
    (st : GenState) (h w d : Int) (pr : Bool) :
    (∀ f g : List String,
      Generator2.run_generator rs eng { st with facts := f } h w d pr =
        Generator2.run_generator rs eng { st with facts := g } h w d pr) ∧
    (Generator2.run_generator rs eng st h w d pr).facts =
      (stageContribs eng "generator2-programs.lp"
        (some (rs.randbelow (2 ^ 31))) []
        (Generator2.generatorStages h w d pr)).flatten ∧
    ((∀ q, eng q = none) →
      (Generator2.run_generator rs eng st h w d pr).facts = []) := by
  have hmain : (Generator2.run_generator rs eng st h w d pr).facts =
      (stageContribs eng "generator2-programs.lp"
        (some (rs.randbelow (2 ^ 31))) []
        (Generator2.generatorStages h w d pr)).flatten := by
    rw [gen2_run_generator_eq]
    show (runStagesP _ _ _ _ _).facts = _
    rw [runStagesP_facts]
    rfl
  refine ⟨fun f g => rfl, hmain, fun hnone => ?_⟩
  rw [hmain, stageContribs_flatten_none eng _ _ hnone]

/-- Claim C3 (witness): a run in which every stage's search exhausts leaves
the fact store empty. -/
theorem fact_store_is_stage_concatenation_witness :
    (Generator2.run_generator rs0 engNone st0 2 2 2 false).facts = [] :=
  (fact_store_is_stage_concatenation rs0 engNone st0 2 2 2 false).2.2
    (fun _ => rfl)

/-- Claim C5: the stage sequencer invokes the solve invoker exactly once per
stage description, in list order, and the invocation of stage i+1 begins
only after the invocation of stage i has returned (the trace is exactly one
begin/done pair per stage, in order); instantiated by both `run_generator`
variants with their hard-coded stage lists. -/
theorem stage_sequencer_in_order (eng : Engine) (program : String)
    (st : GenState) (specs : List StageSpec) (_hlen : 1 ≤ specs.length) :
    (((Generator2.runStages eng program st specs).trace).map evSig =
      st.trace.map evSig ++
        specs.flatMap (fun sp => [(true, sp.step), (false, sp.step)])) ∧
    (∀ (rs : RandSource) (st' : GenState) (h w d : Int) (pr : Bool),
      ((Generator2.run_generator rs eng st' h w d pr).trace).map evSig =
        st'.trace.map evSig ++
          [(true, "init"), (false, "init"),
            (true, "block_size_gen"), (false, "block_size_gen"),
            (true, "block_gen"), (false, "block_gen"),
            (true, "pipe_gen"), (false, "pipe_gen"),
            (true, "rotation"), (false, "rotation")]) ∧
    (∀ (rs : RandSource) (st' : GenState) (h w d : Int) (pr : Bool),
      ((OptimizedGenerator.run_generator rs eng st' h w d pr).trace).map evSig =
        st'.trace.map evSig ++
          [(true, "block_size_gen"), (false, "block_size_gen"),
            (true, "block_gen"), (false, "block_gen"),
            (true, "pipe_gen"), (false, "pipe_gen"),
            (true, "rotation"), (false, "rotation")]) := by
  refine ⟨runStagesP_trace_sig _ _ _ _ _, fun rs st' h w d pr => ?_,
    fun rs st' h w d pr => ?_⟩
  · rw [gen2_run_generator_eq]
    show ((runStagesP _ _ _ _ _).trace).map evSig = _
    rw [runStagesP_trace_sig]
    rfl
  · rw [opt_run_generator_eq]
    show ((runStagesP _ _ _ _ _).trace).map evSig = _
    rw [runStagesP_trace_sig]
    rfl

/-- Claim C5 (witness): a one-stage list produces exactly one begin/done
pair. -/
theorem stage_sequencer_in_order_witness :
    ((Generator2.runStages engNone "generator2-programs.lp" st0
      [⟨"init", "0", 1, false, []⟩]).trace).map evSig =
      [(true, "init"), (false, "init")] := by
  have h := (stage_sequencer_in_order engNone "generator2-programs.lp" st0
    [⟨"init", "0", 1, false, []⟩] (by decide)).1
  simpa [st0] using h

/-- Claim C6: the seed of a generation run is a single natural number
strictly below 2^31 drawn from the randomness source, and every engine
invocation of the run carries that same seed value in its configured
options. -/
theorem seed_bound_and_constant_across_stages (rs : RandSource) (eng : Engine)
    (st : GenState) (h w d : Int) (pr : Bool) :
    rs.randbelow (2 ^ 31) < 2 ^ 31 ∧
    ∀ step q,
      Event.begin step q ∈ (Generator2.run_generator rs eng st h w d pr).trace →
      Event.begin step q ∈ st.trace ∨
        ("--seed=" ++ toString (rs.randbelow (2 ^ 31))) ∈ q.options := by
  refine ⟨rs.randbelow_lt _ (by norm_num), fun step q hmem => ?_⟩
  rw [gen2_run_generator_eq] at hmem
  exact runStagesP_begin_seed Generator2.print_model eng "generator2-programs.lp"
    (rs.randbelow (2 ^ 31)) (Generator2.generatorStages h w d pr)
    { st with facts := [], seed := some (rs.randbelow (2 ^ 31)) } rfl step q hmem

/-- Claim C6 (witness): in a concrete run the first stage's engine options
carry the drawn seed. -/
theorem seed_bound_and_constant_across_stages_witness :
    ("--seed=" ++ toString (rs0.randbelow (2 ^ 31))) ∈
      (stageQuery "generator2-programs.lp" "init" "0" 1
        ["-c h=2", "-c w=2", "-c d=2"] (some 0) []).options :=
  ((seed_bound_and_constant_across_stages rs0 engNone st0 2 2 2 false).2
    "init" _ (by decide)).resolve_left (by decide)

/-- Claim C7: the validator never merges anything back into the fact store:
`run_solver` (in both program variants) leaves `facts` unchanged in both
decide (`print=False`) and emit (`print=True`) modes. -/
theorem run_solver_preserves_fact_store (eng : Engine) (st : GenState)
    (pr : Bool) :
    (Generator2.run_solver eng st pr).facts = st.facts ∧
      (OptimizedGenerator.run_solver eng st pr).facts = st.facts := by
  refine ⟨?_, ?_⟩ <;>
    (simp only [Generator2.run_solver, OptimizedGenerator.run_solver]
     split
     · split <;> rfl
     · rfl)

/-- Claim C8: the fact filter is idempotent: re-filtering an already
filtered store with the same predicate list returns it unchanged. -/
theorem fact_filter_idempotent (facts fl : List String) :
    factFilter (factFilter facts fl) fl = factFilter facts fl := by
  simp [factFilter, List.filter_filter]

theorem takeWhile_append_of_all (p : Char → Bool) :
    ∀ (l r : List Char), (∀ c ∈ l, p c = true) →
      (l ++ r).takeWhile p = l ++ r.takeWhile p := by
  intro l
  induction l with
  | nil => intro r _; simp
  | cons a l' ih => intro r h; simp_all [List.takeWhile_cons]

theorem parenMark_not_pre_dot :
    ∀ (f g : List Char), '(' ∉ g → ¬ (f ++ ['(']) <+: (g ++ ['.']) := by
  intro f
  induction f with
  | nil =>
    intro g hg hpre
    simp only [List.nil_append] at hpre
    cases g with
    | nil =>
      rcases List.cons_prefix_cons.mp hpre with ⟨h1, -⟩
      exact absurd h1 (by decide)
    | cons c g' =>
      rcases List.cons_prefix_cons.mp hpre with ⟨h1, -⟩
      exact hg (by rw [← h1]; exact List.mem_cons_self _ _)
  | cons a f' ih =>
    intro g hg hpre
    cases g with
    | nil =>
      simp only [List.nil_append, List.cons_append] at hpre
      rcases List.cons_prefix_cons.mp hpre with ⟨-, h2⟩
      have := List.prefix_nil.mp h2
      simp at this
    | cons c g' =>
      simp only [List.cons_append] at hpre
      rcases List.cons_prefix_cons.mp hpre with ⟨-, h2⟩
      exact ih g' (fun hmem => hg (List.mem_cons_of_mem _ hmem)) h2

theorem parenMark_pre_iff :
    ∀ (f n a : List Char), '(' ∉ f → '(' ∉ n →
      ((f ++ ['(']) <+: (n ++ '(' :: a) ↔ f = n) := by
  intro f
  induction f with
  | nil =>
    intro n a _ hn
    cases n with
    | nil => simp
    | cons c n' =>
      simp only [List.nil_append, List.cons_append]
      constructor
      · intro hpre
        rcases List.cons_prefix_cons.mp hpre with ⟨h1, -⟩
        exact absurd (by rw [← h1]; exact List.mem_cons_self _ _ : '(' ∈ c :: n') hn
      · intro h
        exact absurd h (by simp)
  | cons b f' ih =>
    intro n a hf hn
    cases n with
    | nil =>
      simp only [List.cons_append, List.nil_append]
      constructor
      · intro hpre
        rcases List.cons_prefix_cons.mp hpre with ⟨h1, -⟩
        exact absurd (by rw [← h1]; exact List.mem_cons_self _ _ : '(' ∈ b :: f') hf
      · intro h
        exact absurd h (by simp)
    | cons c n' =>
      simp only [List.cons_append]
      rw [List.cons_prefix_cons,
        ih n' a (fun hmem => hf (List.mem_cons_of_mem _ hmem))
          (fun hmem => hn (List.mem_cons_of_mem _ hmem))]
      constructor
      · rintro ⟨rfl, rfl⟩; rfl
      · intro h; injection h with h1 h2; exact ⟨h1, h2⟩

theorem pyStartswith_paren_iff (f name args : String)
    (hf : '(' ∉ f.toList) (hn : '(' ∉ name.toList) :
    pyStartswith (name ++ "(" ++ args) (f ++ "(") = true ↔ f = name := by
  unfold pyStartswith
  rw [ List.isPrefixOf_iff_prefix]
  have h1 : (f ++ "(").toList = f.data ++ ['('] := by
    show (f ++ "(").data = _
    rw [String.data_append]
  have h2 : (name ++ "(" ++ args).toList = name.data ++ '(' :: args.data := by
    show (name ++ "(" ++ args).data = _
    rw [String.data_append, String.data_append]
    simp
  rw [h1, h2, parenMark_pre_iff f.data name.data args.data hf hn]
  constructor
  · intro h
    cases f; cases name
    exact congrArg String.mk h
  · intro h
    rw [h]

/-- Claim C4 (counterexample): the validation filter is not functor-name
equality.  On the store `["block."]` (a zero-arity fact whose functor
"block" is in the solver's predicate list) the code's filter returns the
empty list, while the filter the spec describes returns the fact. -/
theorem fact_filter_not_functor_semantics :
    factFilter ["block."] solverFilterList ≠
      factFilterSpec ["block."] solverFilterList := by
  decide

/-- Claim C4 (amended): the filter returns the ordered sub-sequence of facts
whose text starts with a listed predicate name immediately followed by `(`.
For facts of the form `name(args...` with parenthesis-free predicate names
this coincides with functor-name equality: such a fact is selected exactly
when its functor is listed (zero-arity facts, as in the counterexample, are
never selected). -/
theorem fact_filter_paren_semantics (facts preds : List String) :
    (factFilter facts preds).Sublist facts ∧
    ∀ name args : String, '(' ∉ name.toList →
      (∀ f ∈ preds, '(' ∉ f.toList) →
      ((name ++ "(" ++ args) ∈ factFilter facts preds ↔
        (name ++ "(" ++ args) ∈ facts ∧ name ∈ preds) := by
  refine ⟨List.filter_sublist _, fun name args hn hpreds => ?_⟩
  unfold factFilter
  rw [List.mem_filter]
  constructor
  · rintro ⟨hmem, hp⟩
    refine ⟨hmem, ?_⟩
    rcases List.any_eq_true.mp hp with ⟨f, hf, hsw⟩
    have heq := (pyStartswith_paren_iff f name args (hpreds f hf) hn).mp hsw
    exact heq ▸ hf
  · rintro ⟨hmem, hname⟩
    refine ⟨hmem, List.any_eq_true.mpr ⟨name, hname, ?_⟩⟩
    exact (pyStartswith_paren_iff name name args (hpreds name hname) hn).mpr rfl

/-- Claim C4 (witness): on the spec's own example store, a fact with listed
functor "pipe" and one argument is selected. -/
theorem fact_filter_paren_semantics_witness :
    ("pipe" ++ "(" ++ "1,2).") ∈
      factFilter ["block(1,1,1).", "pipe(1,2).", "color(1,red)."]
        ["block", "pipe"] :=
  ((fact_filter_paren_semantics
      ["block(1,1,1).", "pipe(1,2).", "color(1,red)."] ["block", "pipe"]).2
    "pipe" "1,2)." (by decide) (by decide)).mpr ⟨by decide, by decide⟩

/-- Claim C10: the validation filter's membership test is the textual check
"the fact's text starts with a listed name followed by `(`"; consequently a
zero-arity fact whose whole text is a listed name plus the terminating `.`
is excluded from the filtered subset even though its functor name is in the
predicate set. -/
theorem filter_is_textual_paren_check (facts preds : List String) :
    (∀ item, item ∈ factFilter facts preds ↔
      item ∈ facts ∧ ∃ f ∈ preds, pyStartswith item (f ++ "(") = true) ∧
    ∀ g ∈ preds, '(' ∉ g.toList → '.' ∉ g.toList →
      functorOf (g ++ ".") ∈ preds ∧ (g ++ ".") ∉ factFilter facts preds := by
  have hchar : ∀ item, item ∈ factFilter facts preds ↔
      item ∈ facts ∧ ∃ f ∈ preds, pyStartswith item (f ++ "(") = true := by
    intro item
    unfold factFilter
    rw [List.mem_filter, List.any_eq_true]
  refine ⟨hchar, fun g hg hparen hdot => ⟨?_, ?_⟩⟩
  · have hlist : (g ++ ".").toList = g.data ++ ['.'] := by
      show (g ++ ".").data = _
      rw [String.data_append]
    have hfun : functorOf (g ++ ".") = g := by
      have ht : (['.'] : List Char).takeWhile
          (fun c => !(c = '(' || c = '.')) = [] := rfl
      unfold functorOf
      rw [hlist, takeWhile_append_of_all _ g.data ['.']
        (fun c hc => by
          simp only [Bool.not_eq_true', Bool.or_eq_false_iff,
            decide_eq_false_iff_not]
          exact ⟨fun h => hparen (h ▸ hc), fun h => hdot (h ▸ hc)⟩),
        ht, List.append_nil]
    rw [hfun]
    exact hg
  · intro hmem
    rcases (hchar (g ++ ".")).mp hmem with ⟨-, f, -, hsw⟩
    unfold pyStartswith at hsw
    rw [ List.isPrefixOf_iff_prefix] at hsw
    have h1 : (f ++ "(").toList = f.data ++ ['('] := by
      show (f ++ "(").data = _
      rw [String.data_append]
    have h2 : (g ++ ".").toList = g.data ++ ['.'] := by
      show (g ++ ".").data = _
      rw [String.data_append]
    rw [h1, h2] at hsw
    exact parenMark_not_pre_dot f.data g.data hparen hsw

/-- Claim C10 (witness): the zero-arity fact "block." is excluded by the
solver's filter although its functor "block" is in the predicate list. -/
theorem filter_is_textual_paren_check_witness :
    functorOf ("block" ++ ".") ∈ solverFilterList ∧
      ("block" ++ ".") ∉ factFilter ["block."] solverFilterList :=
  (filter_is_textual_paren_check ["block."] solverFilterList).2
    "block" (by decide) (by decide) (by decide)

/-- The dimension bump of `progressive_triples` (`benchmark.py` lines
39-46): grow the triple by always bumping the smallest dimension, keeping
`height ≤ width ≤ depth`; `none` models the `AssertionError` branch
("should never occur"). -/
def bumpTriple (h w d : Nat) : Option (Nat × Nat × Nat) :=
  if h = w ∧ w = d then some (h, w, d + 1)
  else if w = d ∧ h < w then some (h + 1, w, d)
  else if h = w ∧ w < d then some (h, w + 1, d)
  else none

/-- The loop-break test of `progressive_triples` (`benchmark.py` line 36):
`steps is not None and count >= steps`, evaluated after `count += 1`. -/
def stopSweep (steps : Option Nat) (count : Nat) : Bool :=
  match steps with
  | none => false
  | some n => n ≤ count

/-- The `while` loop of `progressive_triples` (`benchmark.py` lines 33-46)
with explicit fuel; the loop terminates because `h+w+d` grows by one per
iteration and the guard fails once a dimension exceeds `max_dim`. -/
def progressiveAux (max_dim : Nat) (steps : Option Nat) :
    Nat → Nat × Nat × Nat → Nat → List (Nat × Nat × Nat)
  | 0, _, _ => []
  | fuel + 1, (h, w, d), count =>
    if h ≤ max_dim ∧ w ≤ max_dim ∧ d ≤ max_dim then
      (h, w, d) ::
        (if stopSweep steps (count + 1) then []
         else
          match bumpTriple h w d with
          | some t => progressiveAux max_dim steps fuel t (count + 1)
          | none => [])
    else []

/-- `progressive_triples` (`benchmark.py` lines 29-46): yields the triples
`(H, W, D)` of the problem-size sweep. -/
def progressive_triples (max_dim : Nat) (steps : Option Nat)
    (start_dim : Nat := 2) : List (Nat × Nat × Nat) :=
  progressiveAux max_dim steps (3 * max_dim + 4)
    (start_dim, start_dim, start_dim) 0

/-- One row of the benchmark CSV (`benchmark.py` line 80): columns
`height, width, depth, run, seconds, size`.  The wall-clock duration is
kept as its formatted text. -/
structure CsvRow where
  height : Nat
  width : Nat
  depth : Nat
  run : Nat
  seconds : String
  size : Nat
deriving DecidableEq, Repr

/-- `append_csv` (`benchmark.py` lines 83-85): writes the row
`[h, w, d, run_idx, f"{seconds:.6f}", h * w * d]`. -/
def append_csv (h w d run_idx : Nat) (seconds : String) : CsvRow :=
  { height := h, width := w, depth := d, run := run_idx,
    seconds := seconds, size := h * w * d }

theorem progressiveAux_head (max_dim : Nat) (steps : Option Nat)
    (fuel h w d count : Nat) :
    progressiveAux max_dim steps fuel (h, w, d) count = [] ∨
    ∃ tl, progressiveAux max_dim steps fuel (h, w, d) count = (h, w, d) :: tl := by
  cases fuel with
  | zero => exact Or.inl rfl
  | succ f =>
    by_cases hc : h ≤ max_dim ∧ w ≤ max_dim ∧ d ≤ max_dim
    · exact Or.inr ⟨(if stopSweep steps (count + 1) then []
        else
          match bumpTriple h w d with
          | some t => progressiveAux max_dim steps f t (count + 1)
          | none => []), by simp [progressiveAux, hc]⟩
    · exact Or.inl (by simp [progressiveAux, hc])

theorem bumpTriple_mono (h w d h' w' d' : Nat) (hw : h ≤ w) (wd : w ≤ d)
    (hb : bumpTriple h w d = some (h', w', d')) :
    h' ≤ w' ∧ w' ≤ d' ∧ h * w * d ≤ h' * w' * d' := by
  unfold bumpTriple at hb
  split_ifs at hb with h1 h2 h3
  · simp only [Option.some.injEq, Prod.mk.injEq] at hb
    obtain ⟨rfl, rfl, rfl⟩ := hb
    exact ⟨hw, Nat.le_succ_of_le wd, by gcongr <;> omega⟩
  · simp only [Option.some.injEq, Prod.mk.injEq] at hb
    obtain ⟨rfl, rfl, rfl⟩ := hb
    exact ⟨h2.2, wd, by gcongr <;> omega⟩
  · simp only [Option.some.injEq, Prod.mk.injEq] at hb
    obtain ⟨rfl, rfl, rfl⟩ := hb
    exact ⟨Nat.le_succ_of_le hw, h3.2, by gcongr <;> omega⟩

theorem progressiveAux_props (max_dim : Nat) (steps : Option Nat) :
    ∀ (fuel h w d count : Nat), h ≤ w → w ≤ d →
      (∀ t ∈ progressiveAux max_dim steps fuel (h, w, d) count,
        t.1 ≤ t.2.1 ∧ t.2.1 ≤ t.2.2) ∧
      List.Chain' (fun a b : Nat × Nat × Nat =>
          a.1 * a.2.1 * a.2.2 ≤ b.1 * b.2.1 * b.2.2)
        (progressiveAux max_dim steps fuel (h, w, d) count) := by
  intro fuel
  induction fuel with
  | zero =>
    intro h w d count _ _
    exact ⟨by simp [progressiveAux], by simp [progressiveAux]⟩
  | succ f ih =>
    intro h w d count hw wd
    by_cases hc : h ≤ max_dim ∧ w ≤ max_dim ∧ d ≤ max_dim
    case neg => simp [progressiveAux, hc]
    case pos =>
    by_cases hstop : stopSweep steps (count + 1) = true
    · constructor
      · intro t ht
        simp [progressiveAux, hc, hstop] at ht
        obtain ⟨rfl, rfl, rfl⟩ := ht
        exact ⟨hw, wd⟩
      · simp [progressiveAux, hc, hstop]
    · cases hbump : bumpTriple h w d with
      | none =>
        constructor
        · intro t ht
          simp [progressiveAux, hc, hstop, hbump] at ht
          obtain ⟨rfl, rfl, rfl⟩ := ht
          exact ⟨hw, wd⟩
        · simp [progressiveAux, hc, hstop, hbump]
      | some t' =>
        obtain ⟨h', w', d'⟩ := t'
        obtain ⟨hw2, wd2, hsz⟩ := bumpTriple_mono h w d h' w' d' hw wd hbump
        obtain ⟨ihmem, ihchain⟩ := ih h' w' d' (count + 1) hw2 wd2
        have hlist : progressiveAux max_dim steps (f + 1) (h, w, d) count =
            (h, w, d) :: progressiveAux max_dim steps f (h', w', d')
              (count + 1) := by
          simp [progressiveAux, hc, hstop, hbump]
        rw [hlist]
        constructor
        · intro t ht
          rcases List.mem_cons.mp ht with rfl | ht
          · exact ⟨hw, wd⟩
          · exact ihmem t ht
        · rw [List.chain'_cons']
          refine ⟨?_, ihchain⟩
          intro b hb
          rcases progressiveAux_head max_dim steps f h' w' d' (count + 1) with
            hnil | ⟨tl, htl⟩
          · rw [hnil] at hb
            cases hb
          · rw [htl] at hb
            simp only [List.head?_cons, Option.mem_def, Option.some.injEq] at hb
            rw [← hb]
            exact hsz

/-- Claim C9: every triple of the benchmark sweep starting at dimension 2
satisfies height ≤ width ≤ depth, every CSV row written by `append_csv` has
its size column equal to height×width×depth, and the sizes of successive
sweep triples are monotonically non-decreasing. -/
theorem benchmark_sweep_props (max_dim : Nat) (steps : Option Nat) :
    (∀ t ∈ progressive_triples max_dim steps 2,
      t.1 ≤ t.2.1 ∧ t.2.1 ≤ t.2.2) ∧
    (∀ (h w d run_idx : Nat) (seconds : String),
      (append_csv h w d run_idx seconds).size = h * w * d) ∧
    List.Chain' (· ≤ ·)
      ((progressive_triples max_dim steps 2).map
        (fun t => t.1 * t.2.1 * t.2.2)) := by
  obtain ⟨hmem, hchain⟩ :=
    progressiveAux_props max_dim steps (3 * max_dim + 4) 2 2 2 0
      (le_refl 2) (le_refl 2)
  refine ⟨hmem, fun h w d i s => rfl, ?_⟩
  rw [List.chain'_map]
  exact hchain

/-- Claim C9 (witness): the third triple of the sweep to `max_dim = 3` is
`(2, 3, 3)`, which is ordered. -/
theorem benchmark_sweep_props_witness : (2 : Nat) ≤ 3 ∧ (3 : Nat) ≤ 3 :=
  (benchmark_sweep_props 3 none).1 (2, 3, 3) (by decide)
